import Mathlib

/-!
Shallow embedding of `include/PivotControlMessages.h` from the
`pivot_control_messages` repository (namespace `pivot_control_messages`).

C++ `double` fields are modelled as real numbers `ℝ`; comparisons on C++
doubles become the corresponding comparisons on `ℝ`, so predicates that the
source returns as `bool` are modelled as `Prop`.  Methods that can observe
but not mutate state (`const` methods, and the pass of the mutable reference
`other` through `closeTo`) are additionally given an explicit state-passing
form (`…M`) returning the result together with the final value of every
field the C++ signature allows to change.
-/

namespace PivotControlMessages

/-- `struct DOFPose`: a pivoting pose given by three Euler angles and an
entrance depth, every field default-initialised to 0. -/
structure DOFPose where
  pitch : ℝ := 0
  yaw : ℝ := 0
  roll : ℝ := 0
  transZ : ℝ := 0

/-- `DOFPose::toString`: the stream insertion
`ss << "pitch:" << pitch << " yaw:" << yaw << " roll:" << roll << " transZ:" << transZ`,
with the (implementation-defined) stream rendering of a `double`
abstracted as a parameter `fmt`. -/
def DOFPose.toString (fmt : ℝ → String) (p : DOFPose) : String :=
  "pitch:" ++ fmt p.pitch
    ++ " yaw:" ++ fmt p.yaw
    ++ " roll:" ++ fmt p.roll
    ++ " transZ:" ++ fmt p.transZ

/-- Modelled from the words of the spec (for comparison with the source
`DOFPose.toString`): the four labelled fields, in the order
pitch, yaw, roll, transZ, joined by single-space separators. -/
def specToStringFormat (fmt : ℝ → String) (p : DOFPose) : String :=
  String.intercalate " "
    ["pitch:" ++ fmt p.pitch, "yaw:" ++ fmt p.yaw,
     "roll:" ++ fmt p.roll, "transZ:" ++ fmt p.transZ]

/-- `DOFPose::operator==`: exact comparison of all four fields. -/
def DOFPose.eq (p other : DOFPose) : Prop :=
  p.pitch = other.pitch ∧
  p.yaw = other.yaw ∧
  p.roll = other.roll ∧
  p.transZ = other.transZ

/-- `DOFPose::operator!=`: `!this->operator==(other)`. -/
def DOFPose.neq (p other : DOFPose) : Prop :=
  ¬ DOFPose.eq p other

/-- `DOFPose::closeTo(other, rotEpsilon, transZEpsilon)`:
the local computations of the body, returning
`rotDist < rotEpsilon && transZDist < transZEpsilon`. -/
def DOFPose.closeTo (p other : DOFPose) (rotEpsilon transZEpsilon : ℝ) : Prop :=
  let diffPitch := p.pitch - other.pitch
  let diffYaw := p.yaw - other.yaw
  let diffRoll := p.roll - other.roll
  let diffTransZ := p.transZ - other.transZ
  let rotDist := Real.sqrt
    (diffPitch * diffPitch +
     diffYaw * diffYaw +
     diffRoll * diffRoll)
  let transZDist := |diffTransZ|
  rotDist < rotEpsilon ∧ transZDist < transZEpsilon

/-- State-passing form of `DOFPose::closeTo`, returning the result together
with the final values of `*this` and of `other`.  The method is `const` on
`this`, and `other` is taken by non-const reference `DOFPose &other`; the body
only declares local variables and returns an expression, with no assignment
to `other` or to any member, so both final values are the values passed in. -/
def DOFPose.closeToM (p other : DOFPose) (rotEpsilon transZEpsilon : ℝ) :
    Prop × DOFPose × DOFPose :=
  (DOFPose.closeTo p other rotEpsilon transZEpsilon, p, other)

/-- `struct DOFBoundaries`: per-axis min/max limits, fields in source order,
every field default-initialised to 0. -/
structure DOFBoundaries where
  pitchMax : ℝ := 0
  pitchMin : ℝ := 0
  yawMax : ℝ := 0
  yawMin : ℝ := 0
  rollMax : ℝ := 0
  rollMin : ℝ := 0
  transZMax : ℝ := 0
  transZMin : ℝ := 0

/-- `DOFBoundaries::poseInside(pose)`: the conjunction of the eight
comparisons of the source, in source order. -/
def DOFBoundaries.poseInside (b : DOFBoundaries) (pose : DOFPose) : Prop :=
  pose.pitch ≥ b.pitchMin ∧
  pose.pitch ≤ b.pitchMax ∧
  pose.yaw ≥ b.yawMin ∧
  pose.yaw ≤ b.yawMax ∧
  pose.roll ≥ b.rollMin ∧
  pose.roll ≤ b.rollMax ∧
  pose.transZ ≥ b.transZMin ∧
  pose.transZ ≤ b.transZMax

/-- The protected state of `class PivotController`: the two readiness flags,
both member-initialised to `false`.  The three pure-virtual operations have
no body in this header and are not part of the state. -/
structure PivotController where
  mDofPoseReady : Bool := false
  mDofBoundariesReady : Bool := false

/-- A newly constructed `PivotController` (all members take their
member-initialiser values). -/
def PivotController.init : PivotController := {}

/-- `PivotController::isReady`:
`return mDofBoundariesReady && mDofPoseReady;`. -/
def PivotController.isReady (c : PivotController) : Bool :=
  c.mDofBoundariesReady && c.mDofPoseReady

/-- State-passing form of `PivotController::isReady`: a `const` method, its
body is a single `return` reading the two flags, so the final state it leaves
behind is the state it was called on. -/
def PivotController.isReadyM (c : PivotController) : Bool × PivotController :=
  (PivotController.isReady c, c)

/-! ## Theorems for the claims -/

/-- **C1.** `closeTo` holds iff the Euclidean norm of the (pitch, yaw, roll)
differences is strictly below `rotEpsilon` and the absolute `transZ`
difference is strictly below `transZEpsilon`; at the boundary example,
`rotEpsilon = 5` at exact rotational distance 5 yields false while
`rotEpsilon = 5.0001` yields true. -/
theorem closeTo_iff_norms_lt :
    (∀ (p q : DOFPose) (rotEpsilon transZEpsilon : ℝ),
      DOFPose.closeTo p q rotEpsilon transZEpsilon ↔
        (Real.sqrt ((p.pitch - q.pitch) ^ 2 + (p.yaw - q.yaw) ^ 2 +
            (p.roll - q.roll) ^ 2) < rotEpsilon ∧
          |p.transZ - q.transZ| < transZEpsilon)) ∧
    ¬ DOFPose.closeTo ⟨0, 0, 0, 0⟩ ⟨3, 4, 0, 0⟩ 5 1 ∧
    DOFPose.closeTo ⟨0, 0, 0, 0⟩ ⟨3, 4, 0, 0⟩ 5.0001 1 := by
  have hdist : Real.sqrt (((0:ℝ) - 3) * ((0:ℝ) - 3) + ((0:ℝ) - 4) * ((0:ℝ) - 4) +
      ((0:ℝ) - 0) * ((0:ℝ) - 0)) = 5 := by
    rw [show ((0:ℝ) - 3) * ((0:ℝ) - 3) + ((0:ℝ) - 4) * ((0:ℝ) - 4) +
        ((0:ℝ) - 0) * ((0:ℝ) - 0) = 5 ^ 2 by norm_num]
    exact Real.sqrt_sq (by norm_num)
  refine ⟨?_, ?_, ?_⟩
  · intro p q rotEpsilon transZEpsilon
    unfold DOFPose.closeTo
    constructor
    · rintro ⟨h1, h2⟩
      refine ⟨?_, h2⟩
      calc Real.sqrt ((p.pitch - q.pitch) ^ 2 + (p.yaw - q.yaw) ^ 2 +
              (p.roll - q.roll) ^ 2)
          = Real.sqrt ((p.pitch - q.pitch) * (p.pitch - q.pitch) +
              (p.yaw - q.yaw) * (p.yaw - q.yaw) +
              (p.roll - q.roll) * (p.roll - q.roll)) := by ring_nf
        _ < rotEpsilon := h1
    · rintro ⟨h1, h2⟩
      refine ⟨?_, h2⟩
      calc Real.sqrt ((p.pitch - q.pitch) * (p.pitch - q.pitch) +
              (p.yaw - q.yaw) * (p.yaw - q.yaw) +
              (p.roll - q.roll) * (p.roll - q.roll))
          = Real.sqrt ((p.pitch - q.pitch) ^ 2 + (p.yaw - q.yaw) ^ 2 +
              (p.roll - q.roll) ^ 2) := by ring_nf
        _ < rotEpsilon := h1
  · unfold DOFPose.closeTo
    simp only [not_and]
    intro h1
    exact absurd h1 (by rw [hdist]; exact lt_irrefl 5)
  · unfold DOFPose.closeTo
    refine ⟨?_, by norm_num⟩
    rw [hdist]; norm_num

/-- **C2.** `poseInside` holds iff every coordinate lies inclusively between
the min and max of its axis; at the example boundaries (pitch range [-1, 1], all
other ranges [0, 0]) the pose with pitch 1 is inside and the pose with pitch
1.0001 is not. -/
theorem poseInside_iff_all_axes :
    (∀ (b : DOFBoundaries) (p : DOFPose),
      DOFBoundaries.poseInside b p ↔
        ((b.pitchMin ≤ p.pitch ∧ p.pitch ≤ b.pitchMax) ∧
         (b.yawMin ≤ p.yaw ∧ p.yaw ≤ b.yawMax) ∧
         (b.rollMin ≤ p.roll ∧ p.roll ≤ b.rollMax) ∧
         (b.transZMin ≤ p.transZ ∧ p.transZ ≤ b.transZMax))) ∧
    DOFBoundaries.poseInside ⟨1, -1, 0, 0, 0, 0, 0, 0⟩ ⟨1, 0, 0, 0⟩ ∧
    ¬ DOFBoundaries.poseInside ⟨1, -1, 0, 0, 0, 0, 0, 0⟩ ⟨1.0001, 0, 0, 0⟩ := by
  refine ⟨?_, ?_, ?_⟩
  · intro b p
    unfold DOFBoundaries.poseInside
    constructor
    · rintro ⟨h1, h2, h3, h4, h5, h6, h7, h8⟩
      exact ⟨⟨h1, h2⟩, ⟨h3, h4⟩, ⟨h5, h6⟩, ⟨h7, h8⟩⟩
    · rintro ⟨⟨h1, h2⟩, ⟨h3, h4⟩, ⟨h5, h6⟩, ⟨h7, h8⟩⟩
      exact ⟨h1, h2, h3, h4, h5, h6, h7, h8⟩
  · unfold DOFBoundaries.poseInside
    norm_num
  · unfold DOFBoundaries.poseInside
    norm_num

/-- **C3.** `isReady` is the conjunction of the two readiness flags
(truth table: only (true, true) yields true), a newly constructed controller
has both flags false so `isReady` is initially false, and `isReady` leaves
the state unchanged. -/
theorem isReady_conj_flags_and_init :
    (∀ c : PivotController,
      ((PivotController.isReadyM c).1 = true ↔
        c.mDofPoseReady = true ∧ c.mDofBoundariesReady = true) ∧
      (PivotController.isReadyM c).2 = c) ∧
    (PivotController.isReadyM ⟨false, false⟩).1 = false ∧
    (PivotController.isReadyM ⟨true, false⟩).1 = false ∧
    (PivotController.isReadyM ⟨false, true⟩).1 = false ∧
    (PivotController.isReadyM ⟨true, true⟩).1 = true ∧
    PivotController.init.mDofPoseReady = false ∧
    PivotController.init.mDofBoundariesReady = false ∧
    (PivotController.isReadyM PivotController.init).1 = false := by
  refine ⟨?_, rfl, rfl, rfl, rfl, rfl, rfl, rfl⟩
  intro c
  refine ⟨?_, rfl⟩
  unfold PivotController.isReadyM PivotController.isReady
  simp only [Bool.and_eq_true]
  exact and_comm

/-- **C4.** A degenerate boundaries value (min strictly above max on at least
one axis) contains no pose. -/
theorem poseInside_degenerate_empty (b : DOFBoundaries)
    (h : b.pitchMax < b.pitchMin ∨ b.yawMax < b.yawMin ∨
         b.rollMax < b.rollMin ∨ b.transZMax < b.transZMin) :
    ∀ p : DOFPose, ¬ DOFBoundaries.poseInside b p := by
  intro p hp
  unfold DOFBoundaries.poseInside at hp
  obtain ⟨h1, h2, h3, h4, h5, h6, h7, h8⟩ := hp
  rcases h with h | h | h | h <;> linarith

/-- Witness for the degenerate-boundaries theorem at the boundaries with
pitchMin = 1 above pitchMax = 0 and the zero pose. -/
theorem poseInside_degenerate_empty_witness :
    ((0:ℝ) < 1 ∨ (0:ℝ) < 0 ∨ (0:ℝ) < 0 ∨ (0:ℝ) < 0) ∧
    ¬ DOFBoundaries.poseInside ⟨0, 1, 0, 0, 0, 0, 0, 0⟩ ⟨0, 0, 0, 0⟩ :=
  ⟨Or.inl (by norm_num),
   poseInside_degenerate_empty ⟨0, 1, 0, 0, 0, 0, 0, 0⟩
     (Or.inl (show (0:ℝ) < 1 by norm_num)) ⟨0, 0, 0, 0⟩⟩

/-- **C5.** With a non-positive `rotEpsilon` or a non-positive
`transZEpsilon`, `closeTo` is false: both distances are non-negative and the
comparison is strict. -/
theorem closeTo_nonpos_epsilon (p q : DOFPose) (rotEpsilon transZEpsilon : ℝ)
    (h : rotEpsilon ≤ 0 ∨ transZEpsilon ≤ 0) :
    ¬ DOFPose.closeTo p q rotEpsilon transZEpsilon := by
  intro hc
  unfold DOFPose.closeTo at hc
  obtain ⟨h1, h2⟩ := hc
  rcases h with h | h
  · exact absurd (lt_of_le_of_lt (Real.sqrt_nonneg _) h1) (not_lt.mpr h)
  · exact absurd (lt_of_le_of_lt (abs_nonneg _) h2) (not_lt.mpr h)

/-- Witness for the non-positive-epsilon theorem at `rotEpsilon = 0`,
`transZEpsilon = 1` on two zero poses. -/
theorem closeTo_nonpos_epsilon_witness :
    ((0:ℝ) ≤ 0 ∨ (1:ℝ) ≤ 0) ∧
    ¬ DOFPose.closeTo ⟨0, 0, 0, 0⟩ ⟨0, 0, 0, 0⟩ 0 1 :=
  ⟨Or.inl le_rfl,
   closeTo_nonpos_epsilon ⟨0, 0, 0, 0⟩ ⟨0, 0, 0, 0⟩ 0 1 (Or.inl le_rfl)⟩

/-- **C6.** `closeTo` is symmetric in its two poses. -/
theorem closeTo_symm (p q : DOFPose) (rotEpsilon transZEpsilon : ℝ) :
    DOFPose.closeTo p q rotEpsilon transZEpsilon ↔
      DOFPose.closeTo q p rotEpsilon transZEpsilon := by
  have harg : (p.pitch - q.pitch) * (p.pitch - q.pitch) +
      (p.yaw - q.yaw) * (p.yaw - q.yaw) +
      (p.roll - q.roll) * (p.roll - q.roll) =
      (q.pitch - p.pitch) * (q.pitch - p.pitch) +
      (q.yaw - p.yaw) * (q.yaw - p.yaw) +
      (q.roll - p.roll) * (q.roll - p.roll) := by ring
  unfold DOFPose.closeTo
  simp only []
  rw [harg, abs_sub_comm]

/-- **C7.** The exact comparison is reflexive, `closeTo` is reflexive for
positive epsilons, field-identical poses compare equal under the exact
comparison and unequal under its negation, and the disequality operator is
the exact negation of the equality operator. -/
theorem eq_refl_and_neq_negation (p q : DOFPose) (rotEpsilon transZEpsilon : ℝ)
    (hrot : 0 < rotEpsilon) (htz : 0 < transZEpsilon)
    (hfields : p.pitch = q.pitch ∧ p.yaw = q.yaw ∧ p.roll = q.roll ∧
      p.transZ = q.transZ) :
    DOFPose.eq p p ∧
    DOFPose.closeTo p p rotEpsilon transZEpsilon ∧
    DOFPose.eq p q ∧
    ¬ DOFPose.neq p q ∧
    (DOFPose.neq p q ↔ ¬ DOFPose.eq p q) := by
  refine ⟨⟨rfl, rfl, rfl, rfl⟩, ?_, hfields, fun hn => hn hfields, Iff.rfl⟩
  unfold DOFPose.closeTo
  simp only [sub_self, mul_zero, add_zero, Real.sqrt_zero, abs_zero]
  exact ⟨hrot, htz⟩

/-- Witness for the reflexivity/negation theorem at two zero poses and
epsilons 1. -/
theorem eq_refl_and_neq_negation_witness :
    (0:ℝ) < 1 ∧
    (DOFPose.eq ⟨0, 0, 0, 0⟩ ⟨0, 0, 0, 0⟩ ∧
     DOFPose.closeTo ⟨0, 0, 0, 0⟩ ⟨0, 0, 0, 0⟩ 1 1 ∧
     DOFPose.eq ⟨0, 0, 0, 0⟩ ⟨0, 0, 0, 0⟩ ∧
     ¬ DOFPose.neq ⟨0, 0, 0, 0⟩ ⟨0, 0, 0, 0⟩ ∧
     (DOFPose.neq ⟨0, 0, 0, 0⟩ ⟨0, 0, 0, 0⟩ ↔
       ¬ DOFPose.eq ⟨0, 0, 0, 0⟩ ⟨0, 0, 0, 0⟩)) :=
  ⟨by norm_num,
   eq_refl_and_neq_negation ⟨0, 0, 0, 0⟩ ⟨0, 0, 0, 0⟩ 1 1
     (by norm_num) (by norm_num) ⟨rfl, rfl, rfl, rfl⟩⟩

/-- **C8.** `toString` renders the four fields in the fixed order pitch, yaw,
roll, transZ with exactly those labels and single-space separators, for every
rendering of the numeric values. -/
theorem toString_fixed_format (fmt : ℝ → String) (p : DOFPose) :
    DOFPose.toString fmt p = specToStringFormat fmt p := by
  have hy : ∀ s : String, " " ++ ("yaw:" ++ s) = " yaw:" ++ s := by
    intro s
    rw [← String.append_assoc, show (" " ++ "yaw:" : String) = " yaw:" from rfl]
  have hr : ∀ s : String, " " ++ ("roll:" ++ s) = " roll:" ++ s := by
    intro s
    rw [← String.append_assoc, show (" " ++ "roll:" : String) = " roll:" from rfl]
  have ht : ∀ s : String, " " ++ ("transZ:" ++ s) = " transZ:" ++ s := by
    intro s
    rw [← String.append_assoc,
      show (" " ++ "transZ:" : String) = " transZ:" from rfl]
  unfold DOFPose.toString specToStringFormat
  simp only [String.intercalate, String.intercalate.go, String.append_assoc,
    hy, hr, ht]

/-- **C9.** `closeTo` mutates neither pose: the state-passing embedding
returns `*this` and `other` unchanged, so all four fields of both poses keep
their values. -/
theorem closeTo_frame (p q : DOFPose) (rotEpsilon transZEpsilon : ℝ) :
    (DOFPose.closeToM p q rotEpsilon transZEpsilon).2.1 = p ∧
    (DOFPose.closeToM p q rotEpsilon transZEpsilon).2.2 = q ∧
    (DOFPose.closeToM p q rotEpsilon transZEpsilon).2.1.pitch = p.pitch ∧
    (DOFPose.closeToM p q rotEpsilon transZEpsilon).2.1.yaw = p.yaw ∧
    (DOFPose.closeToM p q rotEpsilon transZEpsilon).2.1.roll = p.roll ∧
    (DOFPose.closeToM p q rotEpsilon transZEpsilon).2.1.transZ = p.transZ ∧
    (DOFPose.closeToM p q rotEpsilon transZEpsilon).2.2.pitch = q.pitch ∧
    (DOFPose.closeToM p q rotEpsilon transZEpsilon).2.2.yaw = q.yaw ∧
    (DOFPose.closeToM p q rotEpsilon transZEpsilon).2.2.roll = q.roll ∧
    (DOFPose.closeToM p q rotEpsilon transZEpsilon).2.2.transZ = q.transZ :=
  ⟨rfl, rfl, rfl, rfl, rfl, rfl, rfl, rfl, rfl, rfl⟩

/-- **C10.** Exact equality implies closeness for every pair of positive
epsilons. -/
theorem eq_implies_closeTo (p q : DOFPose) (rotEpsilon transZEpsilon : ℝ)
    (heq : DOFPose.eq p q) (hrot : 0 < rotEpsilon) (htz : 0 < transZEpsilon) :
    DOFPose.closeTo p q rotEpsilon transZEpsilon := by
  obtain ⟨h1, h2, h3, h4⟩ := heq
  unfold DOFPose.closeTo
  simp only [h1, h2, h3, h4, sub_self, mul_zero, add_zero, Real.sqrt_zero,
    abs_zero]
  exact ⟨hrot, htz⟩

/-- Witness for the equality-implies-closeness theorem at two zero poses and
epsilons 1. -/
theorem eq_implies_closeTo_witness :
    DOFPose.eq ⟨0, 0, 0, 0⟩ ⟨0, 0, 0, 0⟩ ∧
    (0:ℝ) < 1 ∧
    DOFPose.closeTo ⟨0, 0, 0, 0⟩ ⟨0, 0, 0, 0⟩ 1 1 :=
  ⟨⟨rfl, rfl, rfl, rfl⟩, by norm_num,
   eq_implies_closeTo ⟨0, 0, 0, 0⟩ ⟨0, 0, 0, 0⟩ 1 1 ⟨rfl, rfl, rfl, rfl⟩
     (by norm_num) (by norm_num)⟩

end PivotControlMessages
